import Mathlib

/-!
Verification of the data-preparation and aging-classification pipeline of the
factoring_analysis repository.

The definitions below are a shallow embedding of the Python source:

* `clean_money` embeds the monetary-column cleaning chain of
  `FactoringAnalyzer.prepare_data` (scripts/factoring_analyzer.py, lines 42-53),
  which is the same chain used by `quick_test` (scripts/data_validation.py,
  lines 75-85) and `export_aging_buckets` (scripts/export_aging_buckets.py,
  lines 49-58): strip `$`, `,` and spaces, turn `(` into `-`, drop `)`,
  replace the exact strings `"nan"` and `""` by `"0"`, then
  `pd.to_numeric(..., errors='coerce').fillna(0)`.
* Numeric cell values are modelled by `PyNum`: an exact rational for finite
  floats (decimal literals are exact in this model), plus infinities and NaN.
  `parseNum` models the string-to-float conversion performed by
  `pd.to_numeric`: an optional sign, a decimal mantissa with an optional
  exponent, and the special spellings of infinity and NaN (pandas'
  `floatify` recognises `inf` case-insensitively); any other string fails,
  which under `errors='coerce'` becomes NaN.
-/

inductive PyNum where
  | finite : ℚ → PyNum
  | inf : PyNum
  | neginf : PyNum
  | nan : PyNum
deriving DecidableEq

def PyNum.isNan : PyNum → Bool
  | PyNum.nan => true
  | _ => false

def PyNum.isFinite : PyNum → Bool
  | PyNum.finite _ => true
  | _ => false

def isDigitChar (c : Char) : Bool := 48 ≤ c.toNat && c.toNat ≤ 57

def charDigit (c : Char) : Nat := c.toNat - 48

/-- Value of a digit string, most significant digit first. -/
def digitsToNat (l : List Char) : Nat := l.foldl (fun a c => 10 * a + charDigit c) 0

/-- Split a character list on a separator character (like `str.split(sep)`). -/
def splitOnChar (sep : Char) : List Char → List (List Char)
  | [] => [[]]
  | c :: t =>
    let r := splitOnChar sep t
    if c = sep then [] :: r
    else
      match r with
      | [] => [[c]]
      | h :: t2 => (c :: h) :: t2

def allDigits (l : List Char) : Bool := l.all isDigitChar

/-- Mantissa of a float literal: digits with at most one decimal point,
at least one digit overall (`strtod` accepts `1.`, `.5`, rejects `.`). -/
def parseMantissa (l : List Char) : Option ℚ :=
  match splitOnChar '.' l with
  | [a] => if allDigits a && !a.isEmpty then some ((digitsToNat a : ℚ)) else none
  | [a, b] =>
      if allDigits a && allDigits b && !(a.isEmpty && b.isEmpty) then
        some ((digitsToNat a : ℚ) + (digitsToNat b : ℚ) / (10 : ℚ) ^ b.length)
      else none
  | _ => none

def parseSignedExp (l : List Char) : Option Int :=
  match l with
  | '-' :: r => if allDigits r && !r.isEmpty then some (-(digitsToNat r : Int)) else none
  | '+' :: r => if allDigits r && !r.isEmpty then some ((digitsToNat r : Int)) else none
  | r => if allDigits r && !r.isEmpty then some ((digitsToNat r : Int)) else none

def qpow10 (e : Int) : ℚ := if 0 ≤ e then (10 : ℚ) ^ e.toNat else 1 / (10 : ℚ) ^ (-e).toNat

/-- Unsigned body of a float literal: mantissa with optional exponent part. -/
def parseBody (l : List Char) : Option ℚ :=
  match splitOnChar 'e' l with
  | [m] => parseMantissa m
  | [m, ex] => do
      let mv ← parseMantissa m
      let ev ← parseSignedExp ex
      pure (mv * qpow10 ev)
  | _ => none

/-- Case-folding for the letters that matter to float parsing: the spellings
of `inf`/`nan` and the exponent marker are recognised case-insensitively;
every other letter makes the parse fail whether or not it is folded. -/
def lowerChar (c : Char) : Char :=
  if c = 'I' then 'i'
  else if c = 'N' then 'n'
  else if c = 'F' then 'f'
  else if c = 'A' then 'a'
  else if c = 'E' then 'e'
  else c

/-- Model of the string-to-float conversion inside `pd.to_numeric`:
optional sign, then either an `inf`/`nan` spelling (case-insensitive) or a
decimal literal. `none` means the conversion fails (coerced to NaN by
`errors='coerce'`). -/
def parseNum (s : String) : Option PyNum :=
  let l := s.data.map lowerChar
  match l with
  | [] => none
  | c :: r =>
      if c = '-' then
        if r = ['i', 'n', 'f'] then some PyNum.neginf
        else (parseBody r).map (fun q => PyNum.finite (-q))
      else if c = '+' then
        if r = ['i', 'n', 'f'] then some PyNum.inf
        else (parseBody r).map PyNum.finite
      else
        if c :: r = ['i', 'n', 'f'] then some PyNum.inf
        else if c :: r = ['n', 'a', 'n'] then some PyNum.nan
        else (parseBody (c :: r)).map PyNum.finite

/-- The per-character action of the `.str.replace` chain in
`FactoringAnalyzer.prepare_data`: `$`, `,` and spaces are removed, `(`
becomes `-`, `)` is removed, all other characters pass through. -/
def moneyCharMap (c : Char) : Option Char :=
  if c = '$' ∨ c = ',' ∨ c = ' ' then none
  else if c = '(' then some '-'
  else if c = ')' then none
  else some c

def stripMoneyChars (s : String) : String := ⟨s.data.filterMap moneyCharMap⟩

/-- `.replace('nan', '0').replace('', '0')`: `Series.replace` with plain
strings substitutes whole cells that match exactly. -/
def replaceNanEmpty (s : String) : String :=
  if s = "nan" then "0" else if s = "" then "0" else s

/-- `pd.to_numeric(..., errors='coerce')` on a single cell. -/
def to_numeric_coerce (s : String) : PyNum := (parseNum s).getD PyNum.nan

/-- `.fillna(0)`: replaces NaN (and only NaN) by `0.0`. -/
def fillna0 (v : PyNum) : PyNum :=
  match v with
  | PyNum.nan => PyNum.finite 0
  | x => x

/-- The complete monetary cleaning chain of `FactoringAnalyzer.prepare_data`
(scripts/factoring_analyzer.py lines 42-53). -/
def clean_money (s : String) : PyNum :=
  fillna0 (to_numeric_coerce (replaceNanEmpty (stripMoneyChars s)))

/-!
Dates.  Parsed timestamps are modelled as serial day numbers (`Int`);
`pd.to_datetime(..., errors='coerce')` turns an unparseable cell into `NaT`,
modelled as `none : Option Int`.  `civilToDays` is the standard proleptic
Gregorian day-number computation, so differences of day numbers are exactly
pandas' `.dt.days` on midnight timestamps.
-/

def civilToDays (y m d : Nat) : Nat :=
  let y2 := if m ≤ 2 then y - 1 else y
  let era := y2 / 400
  let yoe := y2 % 400
  let mp := if 2 < m then m - 3 else m + 9
  let doy := (153 * mp + 2) / 5 + (d - 1)
  let doe := yoe * 365 + yoe / 4 - yoe / 100 + doy
  era * 146097 + doe

def dayOf (y m d : Nat) : Int := (civilToDays y m d : Int)

/-- One row of the invoice table after the monetary cleaning and the
`pd.to_datetime(..., errors='coerce')` conversions: monetary fields are
numeric (exact rationals in this model), date fields are day numbers or
`none` for `NaT`. -/
structure InvoiceRow where
  rtype : String
  number : String
  appliedTo : String
  amount : ℚ
  amountPaid : ℚ
  amountDue : ℚ
  transactionDate : Option Int
  dueDate : Option Int
  lastPaymentDate : Option Int
deriving DecidableEq

/-!  scripts/final_export.py  -/

/-- `cutoff_date = pd.Timestamp('2025-06-23')` in `calculate_aging_correctly`
(scripts/final_export.py line 45). -/
def cutoff_date : Int := dayOf 2025 6 23

/-- `create_aging_bucket` (scripts/final_export.py lines 62-72), applied to
integer day counts. -/
def create_aging_bucket (days : Int) (invoice_type : String) : String :=
  if days ≤ 0 then (if invoice_type = "paid" then "On-time" else "Current")
  else if 1 ≤ days ∧ days ≤ 30 then "1-30 Days"
  else if 31 ≤ days ∧ days ≤ 60 then "31-60 Days"
  else if 61 ≤ days ∧ days ≤ 90 then "61-90 Days"
  else "90+ Days"

/-- Paid-mode `Aging Delay Days` of `calculate_aging_correctly`
(scripts/final_export.py lines 47-52):
`(Last Payment Date - Due Date).dt.days` followed by `.fillna(0)`, so a
missing date on either side yields `0`. -/
def aging_delay_days_paid (r : InvoiceRow) : Int :=
  match r.lastPaymentDate, r.dueDate with
  | some lp, some due => lp - due
  | _, _ => 0

/-- Outstanding-mode `Aging Delay Days` of `calculate_aging_correctly`
(scripts/final_export.py lines 54-59):
`(cutoff_date - Due Date).dt.days` followed by `.fillna(0)`. -/
def aging_delay_days_outstanding (r : InvoiceRow) : Int :=
  match r.dueDate with
  | some due => cutoff_date - due
  | none => 0

/-- Bucket assigned by `calculate_aging_correctly` to a paid-population row. -/
def final_export_bucket_paid (r : InvoiceRow) : String :=
  create_aging_bucket (aging_delay_days_paid r) "paid"

/-- Bucket assigned by `calculate_aging_correctly` to an outstanding row. -/
def final_export_bucket_outstanding (r : InvoiceRow) : String :=
  create_aging_bucket (aging_delay_days_outstanding r) "outstanding"

/-- `base_df[base_df['Amt. Due (USD)'] == 0]` (scripts/final_export.py
line 127; same split in NO-working_export.py line 60 and
test_table_fix.py line 32). -/
def paid_invoices_by_amount (df : List InvoiceRow) : List InvoiceRow :=
  df.filter (fun r => decide (r.amountDue = 0))

/-- `base_df[base_df['Amt. Due (USD)'] > 0]` (scripts/final_export.py
line 128). -/
def outstanding_invoices_by_amount (df : List InvoiceRow) : List InvoiceRow :=
  df.filter (fun r => decide (0 < r.amountDue))

/-!  reports/routine_supportfor_report_v01.py  (CorrectedFactoringAnalyzer)  -/

/-- `df_invoice[df_invoice['Last Payment Date'].notna()]`
(routine_supportfor_report_v01.py line 67). -/
def routine_paid_split (df : List InvoiceRow) : List InvoiceRow :=
  df.filter (fun r => r.lastPaymentDate.isSome)

/-- `df_invoice[df_invoice['Last Payment Date'].isna()]`
(routine_supportfor_report_v01.py line 68). -/
def routine_outstanding_split (df : List InvoiceRow) : List InvoiceRow :=
  df.filter (fun r => r.lastPaymentDate.isNone)

/-- `dataset_date = datetime(2025, 6, 23)`
(routine_supportfor_report_v01.py line 87). -/
def dataset_date : Int := dayOf 2025 6 23

/-- `Aging_Delay = (Last Payment Date - Due Date).dt.days` on the paid split
(routine_supportfor_report_v01.py lines 75-78); `NaT` on either side gives a
null delay. -/
def routine_aging_delay_paid (r : InvoiceRow) : Option Int :=
  match r.lastPaymentDate, r.dueDate with
  | some lp, some due => some (lp - due)
  | _, _ => none

/-- `Aging_Delay = dataset_date - Due Date` on the outstanding split
(routine_supportfor_report_v01.py lines 88-90). -/
def routine_aging_delay_outstanding (r : InvoiceRow) : Option Int :=
  r.dueDate.map (fun due => dataset_date - due)

/-- `pd.cut(delay, bins=[-inf, 0, 30, 60, 90, inf], labels=[zeroLabel,
'1-30 Days', '31-60 Days', '61-90 Days', '90+ Days'])` on one value
(routine_supportfor_report_v01.py lines 80-84 and 92-96,
factoring_analyzer.py lines 97-101, export_aging_buckets.py lines 81-85).
`pd.cut` sends a null input to a null category. -/
def pd_cut_aging (zeroLabel : String) (delay : Option Int) : Option String :=
  delay.map fun d =>
    if d ≤ 0 then zeroLabel
    else if d ≤ 30 then "1-30 Days"
    else if d ≤ 60 then "31-60 Days"
    else if d ≤ 90 then "61-90 Days"
    else "90+ Days"

/-!  scripts/factoring_analyzer.py and scripts/export_aging_buckets.py:
the wall-clock-dependent aging.  `datetime.now()` is passed in explicitly as
`now` so that the dependence is visible in the model. -/

/-- `Days_Past_Due = (datetime.now() - Due Date).dt.days`
(factoring_analyzer.py line 90; export_aging_buckets.py line 77 computes the
same quantity from `today = datetime.now()`). -/
def days_past_due (now : Int) (r : InvoiceRow) : Option Int :=
  r.dueDate.map (fun due => now - due)

/-- `Aging_Bucket` of `FactoringAnalyzer.prepare_data`
(factoring_analyzer.py lines 97-101) and of `export_aging_buckets`
(export_aging_buckets.py lines 81-85): `pd.cut` of the clock-dependent
`Days_Past_Due`. -/
def fa_aging_bucket (now : Int) (r : InvoiceRow) : Option String :=
  pd_cut_aging "Current" (days_past_due now r)

/-!  Type partition (factoring_analyzer.py lines 65-74).  -/

def type_invoices (df : List InvoiceRow) : List InvoiceRow :=
  df.filter (fun r => decide (r.rtype = "Invoice"))

def type_credit_memos (df : List InvoiceRow) : List InvoiceRow :=
  df.filter (fun r => decide (r.rtype = "Credit Memo"))

/-- The residual group: rows whose `Type` is neither `Invoice` nor
`Credit Memo`.  They stay in `self.df_full` but in neither split. -/
def type_others (df : List InvoiceRow) : List InvoiceRow :=
  df.filter (fun r => !(decide (r.rtype = "Invoice")) && !(decide (r.rtype = "Credit Memo")))

/-!  Aggregation (groupby + percentage columns; scripts/final_export.py
lines 186-213 and 253-280).  A groupby over a population is modelled as a sum
over the finite set of bucket labels occurring in that population. -/

/-- The bucket labels occurring in a population (the groupby keys). -/
def bucket_groups (pop : List InvoiceRow) (bucketOf : InvoiceRow → String) : Finset String :=
  (pop.map bucketOf).toFinset

/-- `groupby(bucket).agg(sum of g)`: the total of `g` over one bucket group.
With `g = fun _ => 1` this is the group count. -/
def group_total (pop : List InvoiceRow) (bucketOf : InvoiceRow → String)
    (g : InvoiceRow → ℚ) (b : String) : ℚ :=
  ((pop.filter (fun r => decide (bucketOf r = b))).map g).sum

/-- A percentage column: group total divided by the total of the same
population, times 100 (scripts/final_export.py lines 208-209 and 275-276,
before `.round(2)`). -/
def pct_column (pop : List InvoiceRow) (bucketOf : InvoiceRow → String)
    (g : InvoiceRow → ℚ) (b : String) : ℚ :=
  group_total pop bucketOf g b / (pop.map g).sum * 100

/-- The paid/outstanding discriminator used by the report path: a record is
Paid iff `Last Payment Date` is present. -/
def paid_by_date (r : InvoiceRow) : Bool := r.lastPaymentDate.isSome

/-- The paid/outstanding discriminator used by the export scripts: a record
is Paid iff its cleaned `Amt. Due (USD)` equals 0. -/
def paid_by_amount (r : InvoiceRow) : Bool := decide (r.amountDue = 0)

/-- Modelled from the spec, for comparison with the code: the bucket table of
spec section 4.2 — delay ≤ 0 is On-time (paid mode) or Current (outstanding
mode), 1-30, 31-60, 61-90, and more than 90 days. -/
def spec_bucket (paidMode : Bool) (d : Int) : String :=
  if d ≤ 0 then (if paidMode then "On-time" else "Current")
  else if 1 ≤ d ∧ d ≤ 30 then "1-30 Days"
  else if 31 ≤ d ∧ d ≤ 60 then "31-60 Days"
  else if 61 ≤ d ∧ d ≤ 90 then "61-90 Days"
  else "90+ Days"

/-!
The accepted monetary grammar (spec section 4.1 / section 8): an optional
dollar sign, an integer part with optional proper thousands commas, an
optional fractional part, and optional parentheses for accounting-style
negation.  `MoneyForm` is a constructive presentation of that grammar
(`render` produces exactly the grammar strings), and `money_grammar` is an
executable recognizer for the same grammar, both modelled from the spec's
words for comparison with the code's normalizer.
-/

/-- A monetary string of the accepted grammar, in structured form:
`headGroup` is the leading digit group, `commaGroups` the comma-separated
three-digit groups, `fracDigits` the optional digits after the decimal
point. -/
structure MoneyForm where
  dollar : Bool
  parens : Bool
  headGroup : List Nat
  commaGroups : List (List Nat)
  fracDigits : Option (List Nat)

/-- Well-formedness of a `MoneyForm`: nonempty integer part, digits below
ten, and proper thousands grouping (comma groups of exactly three digits,
head group of at most three digits when commas are used). -/
def money_wf (m : MoneyForm) : Prop :=
  m.headGroup ≠ [] ∧ (∀ d ∈ m.headGroup, d < 10) ∧
  (∀ g ∈ m.commaGroups, g.length = 3 ∧ ∀ d ∈ g, d < 10) ∧
  (m.commaGroups ≠ [] → m.headGroup.length ≤ 3) ∧
  (∀ f, m.fracDigits = some f → ∀ d ∈ f, d < 10)

instance (m : MoneyForm) : Decidable (money_wf m) := by
  unfold money_wf; infer_instance

def renderDigits (l : List Nat) : List Char := l.map Nat.digitChar

def renderGroups (gs : List (List Nat)) : List Char :=
  (gs.map (fun g => ',' :: renderDigits g)).flatten

def renderFrac : Option (List Nat) → List Char
  | none => []
  | some f => '.' :: renderDigits f

def renderCore (m : MoneyForm) : List Char :=
  renderDigits m.headGroup ++ renderGroups m.commaGroups ++ renderFrac m.fracDigits

/-- The grammar string denoted by a `MoneyForm`. -/
def render (m : MoneyForm) : String :=
  ⟨(if m.dollar then ['$'] else [])
    ++ (if m.parens then '(' :: (renderCore m ++ [')']) else renderCore m)⟩

/-- Value of a digit list, most significant first. -/
def natOfDigitList (l : List Nat) : Nat := l.foldl (fun a d => 10 * a + d) 0

/-- All integer-part digits of a form, commas removed. -/
def intDigits (m : MoneyForm) : List Nat := m.headGroup ++ m.commaGroups.flatten

/-- The mathematically implied value of a grammar string: the decimal value
of its digits, negated when parenthesised. -/
def impliedValue (m : MoneyForm) : ℚ :=
  let mag : ℚ := (natOfDigitList (intDigits m) : ℚ) +
    (match m.fracDigits with
     | none => 0
     | some f => (natOfDigitList f : ℚ) / (10 : ℚ) ^ f.length)
  if m.parens then -mag else mag

/-- Recognizer, integer part: a nonempty digit group, optionally followed by
comma-separated groups of exactly three digits (head group then at most
three digits). -/
def intPartOk (l : List Char) : Bool :=
  match splitOnChar ',' l with
  | [] => false
  | h :: t =>
      (!h.isEmpty) && allDigits h &&
        (t.isEmpty ||
          (decide (h.length ≤ 3) && t.all (fun g => decide (g.length = 3) && allDigits g)))

/-- Recognizer, numeric core: integer part with an optional all-digit
fractional part. -/
def numericCoreOk (l : List Char) : Bool :=
  match splitOnChar '.' l with
  | [a] => intPartOk a
  | [a, f] => intPartOk a && allDigits f
  | _ => false

/-- Executable recognizer of the accepted monetary grammar, modelled from
the spec's words: optional `$`, optional wrapping parentheses, thousands
grouping, optional decimals. -/
def money_grammar (s : String) : Bool :=
  let l := s.data
  let l1 := match l with
    | '$' :: r => r
    | r => r
  match l1 with
  | '(' :: r =>
      match r.getLast? with
      | some ')' => numericCoreOk r.dropLast
      | _ => false
  | r => numericCoreOk r

/-!  Sanity checks of the embedding on concrete values.  -/

example : dayOf 2025 6 23 - dayOf 2025 1 1 = 173 := by decide

example : dayOf 2025 1 15 - dayOf 2025 1 1 = 14 := by decide

example : clean_money "$0" = PyNum.finite 0 := by decide

example : clean_money "N/A" = PyNum.finite 0 := by decide

example : clean_money "$1,234.56" = PyNum.finite (123456 / 100 : ℚ) := by
  simp [clean_money, to_numeric_coerce, stripMoneyChars, replaceNanEmpty, parseNum,
    parseBody, parseMantissa, splitOnChar, digitsToNat, charDigit, moneyCharMap,
    fillna0, allDigits, isDigitChar, lowerChar]
  norm_num

example : clean_money "(1,234.50)" = PyNum.finite (-(12345 / 10 : ℚ)) := by
  simp [clean_money, to_numeric_coerce, stripMoneyChars, replaceNanEmpty, parseNum,
    parseBody, parseMantissa, splitOnChar, digitsToNat, charDigit, moneyCharMap,
    fillna0, allDigits, isDigitChar, lowerChar]
  norm_num

/-- C2: for every classified record the bucket is one of exactly the five
defined labels, and the map from `aging_delay_days` to bucket — both the
`create_aging_bucket` if-chain of final_export.py and the `pd.cut` binning
of routine_supportfor_report_v01.py / factoring_analyzer.py — is the pure
function of the spec section 4.2 table, in both modes; boundary values
0, 1, 30, 31, 60, 61, 90, 91 are instances of the universal statement. -/
theorem c2_bucket_map_matches_spec_table :
    ∀ d : Int,
      create_aging_bucket d "paid" = spec_bucket true d ∧
      create_aging_bucket d "outstanding" = spec_bucket false d ∧
      pd_cut_aging "On-time" (some d) = some (spec_bucket true d) ∧
      pd_cut_aging "Current" (some d) = some (spec_bucket false d) ∧
      spec_bucket true d ∈ ["On-time", "1-30 Days", "31-60 Days", "61-90 Days", "90+ Days"] ∧
      spec_bucket false d ∈ ["Current", "1-30 Days", "31-60 Days", "61-90 Days", "90+ Days"] := by
  intro d
  rcases le_or_lt d 0 with h0 | h0
  · simp [create_aging_bucket, spec_bucket, pd_cut_aging, h0]
  · rcases le_or_lt d 30 with h30 | h30
    · simp [create_aging_bucket, spec_bucket, pd_cut_aging,
        show ¬d ≤ 0 by omega, show 1 ≤ d by omega, h30]
    · rcases le_or_lt d 60 with h60 | h60
      · simp [create_aging_bucket, spec_bucket, pd_cut_aging,
          show ¬d ≤ 0 by omega, show ¬d ≤ 30 by omega, show 31 ≤ d by omega, h60]
      · rcases le_or_lt d 90 with h90 | h90
        · simp [create_aging_bucket, spec_bucket, pd_cut_aging,
            show ¬d ≤ 0 by omega, show ¬d ≤ 30 by omega, show ¬d ≤ 60 by omega,
            show 61 ≤ d by omega, h90]
        · simp [create_aging_bucket, spec_bucket, pd_cut_aging,
            show ¬d ≤ 0 by omega, show ¬d ≤ 30 by omega, show ¬d ≤ 60 by omega,
            show ¬d ≤ 90 by omega]

/-- C1 counterexample: an outstanding-mode invoice whose `Due Date` failed to
parse (`NaT`).  `calculate_aging_correctly` (final_export.py lines 57-59)
does `.fillna(0)` on the delay, so the record gets `aging_delay_days = 0`
and lands in the `Current` bucket instead of being excluded and counted as
unclassifiable. -/
theorem c1_counterexample_missing_date_zeroed_and_bucketed :
    aging_delay_days_outstanding ⟨"Invoice", "INV-1", "ACME", 100, 0, 100, none, none, none⟩ = 0 ∧
    final_export_bucket_outstanding ⟨"Invoice", "INV-1", "ACME", 100, 0, 100, none, none, none⟩
      = "Current" ∧
    outstanding_invoices_by_amount [⟨"Invoice", "INV-1", "ACME", 100, 0, 100, none, none, none⟩]
      = [⟨"Invoice", "INV-1", "ACME", 100, 0, 100, none, none, none⟩] := by decide

/-- C1 amended: in final_export.py a record whose required reference date is
missing is not excluded: its delay is zeroed by `.fillna(0)` and it is placed
in the On-time/Current bucket.  In the report path
(routine_supportfor_report_v01.py) the delay stays null and `pd.cut` assigns
no bucket (the record silently drops out of the groupby), but no
unclassifiable count is produced anywhere. -/
theorem c1_amended_missing_date_behaviour :
    (∀ r : InvoiceRow, r.dueDate = none →
        aging_delay_days_outstanding r = 0 ∧ final_export_bucket_outstanding r = "Current") ∧
    (∀ r : InvoiceRow, r.lastPaymentDate = none ∨ r.dueDate = none →
        aging_delay_days_paid r = 0 ∧ final_export_bucket_paid r = "On-time") ∧
    (∀ r : InvoiceRow, r.dueDate = none →
        routine_aging_delay_outstanding r = none ∧
        pd_cut_aging "Current" (routine_aging_delay_outstanding r) = none) ∧
    (∀ r : InvoiceRow, r.lastPaymentDate = none ∨ r.dueDate = none →
        routine_aging_delay_paid r = none ∧
        pd_cut_aging "On-time" (routine_aging_delay_paid r) = none) := by
  refine ⟨?_, ?_, ?_, ?_⟩
  · intro r h
    simp [aging_delay_days_outstanding, final_export_bucket_outstanding, h,
      create_aging_bucket]
  · intro r h
    have hdelay : aging_delay_days_paid r = 0 := by
      rcases h with h | h
      · simp [aging_delay_days_paid, h]
      · rcases hr : r.lastPaymentDate <;> simp [aging_delay_days_paid, h, hr]
    exact ⟨hdelay, by simp [final_export_bucket_paid, hdelay, create_aging_bucket]⟩
  · intro r h
    simp [routine_aging_delay_outstanding, h, pd_cut_aging]
  · intro r h
    have hdelay : routine_aging_delay_paid r = none := by
      rcases h with h | h
      · simp [routine_aging_delay_paid, h]
      · rcases hr : r.lastPaymentDate <;> simp [routine_aging_delay_paid, h, hr]
    exact ⟨hdelay, by simp [hdelay, pd_cut_aging]⟩

/-- C1 amended, witness at a concrete record with an unparseable due date. -/
theorem c1_amended_missing_date_behaviour_witness :
    aging_delay_days_outstanding ⟨"Invoice", "INV-2", "ACME", 50, 0, 50, none, none, none⟩ = 0 ∧
    final_export_bucket_outstanding ⟨"Invoice", "INV-2", "ACME", 50, 0, 50, none, none, none⟩
      = "Current" :=
  c1_amended_missing_date_behaviour.1 ⟨"Invoice", "INV-2", "ACME", 50, 0, 50, none, none, none⟩ rfl

/-- C3 counterexample.  Two violations at concrete inputs.  First, in
final_export.py the paid population is `Amt. Due (USD) == 0`, and
`calculate_aging_correctly` computes paid-mode aging for such a record even
when it has no `Last Payment Date` (the delay is `fillna`-ed to 0 and the
record is bucketed On-time) — contradicting "Paid-mode aging is computed only
for invoices that have a last_payment_date".  Second, the outstanding-mode
reference date is not a caller-supplied snapshot: it is hardcoded to
2025-06-23, so for a due date of 2025-01-01 the delay is 173 regardless of
any as-of date the caller intends (e.g. 2025-07-31, which would give 211). -/
theorem c3_counterexample_paid_without_date_and_fixed_snapshot :
    paid_invoices_by_amount [⟨"Invoice", "INV-3", "ACME", 700, 700, 0, none,
        some (dayOf 2025 1 1), none⟩]
      = [⟨"Invoice", "INV-3", "ACME", 700, 700, 0, none, some (dayOf 2025 1 1), none⟩] ∧
    aging_delay_days_paid ⟨"Invoice", "INV-3", "ACME", 700, 700, 0, none,
        some (dayOf 2025 1 1), none⟩ = 0 ∧
    final_export_bucket_paid ⟨"Invoice", "INV-3", "ACME", 700, 700, 0, none,
        some (dayOf 2025 1 1), none⟩ = "On-time" ∧
    aging_delay_days_outstanding ⟨"Invoice", "INV-4", "ACME", 500, 0, 500, none,
        some (dayOf 2025 1 1), none⟩ = 173 ∧
    aging_delay_days_outstanding ⟨"Invoice", "INV-4", "ACME", 500, 0, 500, none,
        some (dayOf 2025 1 1), none⟩ ≠ dayOf 2025 7 31 - dayOf 2025 1 1 := by decide

/-- C3 amended: when both reference dates parse, the paid-mode delay is
`last_payment_date - due_date` in whole days (both in final_export.py and in
the report path); when the due date parses, the outstanding-mode delay is
`snapshot - due_date` where the snapshot is the hardcoded 2025-06-23 (not a
caller parameter); and in the report path paid-mode aging is computed only
for rows of the paid split, all of which have a `last_payment_date`. -/
theorem c3_amended_delay_formulas :
    (∀ (r : InvoiceRow) (lp due : Int), r.lastPaymentDate = some lp → r.dueDate = some due →
        aging_delay_days_paid r = lp - due ∧ routine_aging_delay_paid r = some (lp - due)) ∧
    (∀ (r : InvoiceRow) (due : Int), r.dueDate = some due →
        aging_delay_days_outstanding r = dayOf 2025 6 23 - due ∧
        routine_aging_delay_outstanding r = some (dayOf 2025 6 23 - due)) ∧
    (∀ (df : List InvoiceRow) (r : InvoiceRow), r ∈ routine_paid_split df →
        r.lastPaymentDate.isSome = true) := by
  refine ⟨?_, ?_, ?_⟩
  · intro r lp due hlp hdue
    constructor <;> simp [aging_delay_days_paid, routine_aging_delay_paid, hlp, hdue]
  · intro r due hdue
    constructor <;>
      simp [aging_delay_days_outstanding, routine_aging_delay_outstanding, hdue,
        cutoff_date, dataset_date]
  · intro df r hr
    exact (List.mem_filter.mp hr).2

/-- C3 amended, witness: spec scenario 1 — due 2025-01-01, paid 2025-01-15;
the paid-mode delay is 14 days. -/
theorem c3_amended_delay_formulas_witness :
    (aging_delay_days_paid ⟨"Invoice", "INV-5", "ACME", 900, 900, 0, none,
        some (dayOf 2025 1 1), some (dayOf 2025 1 15)⟩ = dayOf 2025 1 15 - dayOf 2025 1 1 ∧
      routine_aging_delay_paid ⟨"Invoice", "INV-5", "ACME", 900, 900, 0, none,
        some (dayOf 2025 1 1), some (dayOf 2025 1 15)⟩
        = some (dayOf 2025 1 15 - dayOf 2025 1 1)) ∧
    (aging_delay_days_outstanding ⟨"Invoice", "INV-6", "ACME", 500, 0, 500, none,
        some (dayOf 2025 1 1), none⟩ = dayOf 2025 6 23 - dayOf 2025 1 1) ∧
    Option.isSome (InvoiceRow.lastPaymentDate ⟨"Invoice", "INV-5", "ACME", 900, 900, 0, none,
        some (dayOf 2025 1 1), some (dayOf 2025 1 15)⟩) = true :=
  ⟨c3_amended_delay_formulas.1 _ _ _ rfl rfl,
   (c3_amended_delay_formulas.2.1 ⟨"Invoice", "INV-6", "ACME", 500, 0, 500, none,
      some (dayOf 2025 1 1), none⟩ _ rfl).1,
   c3_amended_delay_formulas.2.2
     [⟨"Invoice", "INV-5", "ACME", 900, 900, 0, none, some (dayOf 2025 1 1),
        some (dayOf 2025 1 15)⟩]
     ⟨"Invoice", "INV-5", "ACME", 900, 900, 0, none, some (dayOf 2025 1 1),
        some (dayOf 2025 1 15)⟩ (by decide)⟩

/-- C4 counterexample: `FactoringAnalyzer.prepare_data` computes
`Days_Past_Due = datetime.now() - Due Date` and buckets it; for the same
input row, a run at 2025-06-23 puts the row in `Current` while a run 100
days later puts it in `90+ Days`.  The aggregate outputs therefore depend on
the wall clock, and these scripts take no snapshot-date parameter at all. -/
theorem c4_counterexample_wall_clock_changes_bucket :
    fa_aging_bucket (dayOf 2025 6 23) ⟨"Invoice", "INV-7", "ACME", 100, 0, 100, none,
        some (dayOf 2025 6 23), none⟩ = some "Current" ∧
    fa_aging_bucket (dayOf 2025 6 23 + 100) ⟨"Invoice", "INV-7", "ACME", 100, 0, 100, none,
        some (dayOf 2025 6 23), none⟩ = some "90+ Days" := by decide

/-- C4 amended: final_export.py and the report path age outstanding invoices
against a fixed constant (2025-06-23), so their aggregates are pure functions
of the input; but factoring_analyzer.py and export_aging_buckets.py compute
`Days_Past_Due` from `datetime.now()`, so their bucket aggregates change with
the run time (the delay shifts one-for-one with the clock). -/
theorem c4_amended_clock_dependence :
    (∀ (now : Int) (r : InvoiceRow) (due : Int), r.dueDate = some due →
        days_past_due now r = some (now - due)) ∧
    (∀ (r : InvoiceRow) (due : Int), r.dueDate = some due →
        aging_delay_days_outstanding r = cutoff_date - due ∧
        routine_aging_delay_outstanding r = some (dataset_date - due)) ∧
    cutoff_date = dayOf 2025 6 23 ∧ dataset_date = dayOf 2025 6 23 := by
  refine ⟨?_, ?_, rfl, rfl⟩
  · intro now r due hdue
    simp [days_past_due, hdue]
  · intro r due hdue
    constructor <;> simp [aging_delay_days_outstanding, routine_aging_delay_outstanding, hdue]

/-- C4 amended, witness at a concrete clock value and record. -/
theorem c4_amended_clock_dependence_witness :
    days_past_due (dayOf 2025 6 23) ⟨"Invoice", "INV-8", "ACME", 100, 0, 100, none,
        some (dayOf 2025 1 1), none⟩ = some (dayOf 2025 6 23 - dayOf 2025 1 1) ∧
    aging_delay_days_outstanding ⟨"Invoice", "INV-8", "ACME", 100, 0, 100, none,
        some (dayOf 2025 1 1), none⟩ = cutoff_date - dayOf 2025 1 1 :=
  ⟨c4_amended_clock_dependence.1 (dayOf 2025 6 23) _ _ rfl,
   (c4_amended_clock_dependence.2.1 ⟨"Invoice", "INV-8", "ACME", 100, 0, 100, none,
      some (dayOf 2025 1 1), none⟩ _ rfl).1⟩

/-- C5 counterexample: a partially paid invoice — `Last Payment Date` present
but `Amt. Due (USD) = 500` — is Paid under the date signal
(routine_supportfor_report_v01.py line 67) and Outstanding under the
amount signal (final_export.py lines 127-128).  The two splits do not
produce the same populations. -/
theorem c5_counterexample_partial_payment :
    routine_paid_split [⟨"Invoice", "INV-9", "ACME", 1000, 500, 500, none,
        some (dayOf 2025 1 1), some (dayOf 2025 2 1)⟩]
      = [⟨"Invoice", "INV-9", "ACME", 1000, 500, 500, none, some (dayOf 2025 1 1),
          some (dayOf 2025 2 1)⟩] ∧
    paid_invoices_by_amount [⟨"Invoice", "INV-9", "ACME", 1000, 500, 500, none,
        some (dayOf 2025 1 1), some (dayOf 2025 2 1)⟩] = [] ∧
    routine_outstanding_split [⟨"Invoice", "INV-9", "ACME", 1000, 500, 500, none,
        some (dayOf 2025 1 1), some (dayOf 2025 2 1)⟩] = [] ∧
    outstanding_invoices_by_amount [⟨"Invoice", "INV-9", "ACME", 1000, 500, 500, none,
        some (dayOf 2025 1 1), some (dayOf 2025 2 1)⟩]
      = [⟨"Invoice", "INV-9", "ACME", 1000, 500, 500, none, some (dayOf 2025 1 1),
          some (dayOf 2025 2 1)⟩] := by decide

/-- C5 amended: the two discriminators agree on a record exactly when
presence of `last_payment_date` coincides with `amount_due = 0`; when that
holds for every record of a frame the two Paid populations are equal, and
when additionally no cleaned `amount_due` is negative the two Outstanding
populations are equal.  They are not equivalent in general (partial
payments violate the agreement condition). -/
theorem c5_amended_signal_agreement :
    (∀ r : InvoiceRow,
        (paid_by_date r = paid_by_amount r) ↔
          (r.lastPaymentDate.isSome = true ↔ r.amountDue = 0)) ∧
    (∀ df : List InvoiceRow, (∀ r ∈ df, paid_by_date r = paid_by_amount r) →
        routine_paid_split df = paid_invoices_by_amount df) ∧
    (∀ df : List InvoiceRow,
        (∀ r ∈ df, paid_by_date r = paid_by_amount r ∧ 0 ≤ r.amountDue) →
        routine_outstanding_split df = outstanding_invoices_by_amount df) := by
  refine ⟨?_, ?_, ?_⟩
  · intro r
    rcases hr : r.lastPaymentDate <;>
      by_cases hd : r.amountDue = 0 <;>
        simp [paid_by_date, paid_by_amount, hr, hd]
  · intro df h
    exact List.filter_congr fun r hr => h r hr
  · intro df h
    refine List.filter_congr fun r hr => ?_
    obtain ⟨hagree, hnn⟩ := h r hr
    rcases hlp : r.lastPaymentDate with _ | v
    · have : paid_by_amount r = false := by
        rw [← hagree]; simp [paid_by_date, hlp]
      have hne : ¬r.amountDue = 0 := by
        simpa [paid_by_amount] using this
      have : 0 < r.amountDue := lt_of_le_of_ne hnn (Ne.symm hne)
      simp [hlp, this]
    · have : paid_by_amount r = true := by
        rw [← hagree]; simp [paid_by_date, hlp]
      have h0 : r.amountDue = 0 := by
        simpa [paid_by_amount] using this
      simp [hlp, h0]

/-- C5 amended, witness: a frame on which the agreement condition holds and
both splits coincide. -/
theorem c5_amended_signal_agreement_witness :
    routine_paid_split [⟨"Invoice", "INV-10", "ACME", 1000, 1000, 0, none,
        some (dayOf 2025 1 1), some (dayOf 2025 2 1)⟩]
      = paid_invoices_by_amount [⟨"Invoice", "INV-10", "ACME", 1000, 1000, 0, none,
          some (dayOf 2025 1 1), some (dayOf 2025 2 1)⟩] ∧
    ((paid_by_date ⟨"Invoice", "INV-10", "ACME", 1000, 1000, 0, none,
        some (dayOf 2025 1 1), some (dayOf 2025 2 1)⟩
      = paid_by_amount ⟨"Invoice", "INV-10", "ACME", 1000, 1000, 0, none,
        some (dayOf 2025 1 1), some (dayOf 2025 2 1)⟩) ↔
      (Option.isSome (Option.some (dayOf 2025 2 1)) = true ↔ (0 : ℚ) = 0)) :=
  ⟨c5_amended_signal_agreement.2.1 _ (by decide),
   c5_amended_signal_agreement.1 ⟨"Invoice", "INV-10", "ACME", 1000, 1000, 0, none,
      some (dayOf 2025 1 1), some (dayOf 2025 2 1)⟩⟩

/-- Helper: an element failing the filter predicate does not occur in the
filtered list. -/
theorem count_filter_of_neg {α : Type} [DecidableEq α] {p : α → Bool} {a : α} {l : List α}
    (h : p a = false) : List.count a (l.filter p) = 0 := by
  refine List.count_eq_zero.mpr fun hm => ?_
  have := (List.mem_filter.mp hm).2
  rw [h] at this
  exact Bool.false_ne_true this

/-- Helper: filtering by two mutually exclusive predicates and by the residual
predicate reconstructs the list up to permutation. -/
theorem filter_tripartition_perm {α : Type} [DecidableEq α] (p q : α → Bool)
    (hpq : ∀ a, p a = true → q a = false) (l : List α) :
    (l.filter p ++ l.filter q ++ l.filter (fun a => !p a && !q a)).Perm l := by
  rw [List.perm_iff_count]
  intro x
  rw [List.count_append, List.count_append]
  by_cases hp : p x = true
  · rw [List.count_filter hp, count_filter_of_neg (hpq x hp),
      count_filter_of_neg (by simp [hp, hpq x hp])]
    omega
  · have hp' : p x = false := by simpa using hp
    by_cases hq : q x = true
    · rw [count_filter_of_neg hp', List.count_filter hq,
        count_filter_of_neg (by simp [hp', hq])]
      omega
    · have hq' : q x = false := by simpa using hq
      rw [count_filter_of_neg hp', count_filter_of_neg hq',
        List.count_filter (by simp [hp', hq'])]
      omega

/-- Helper: the amount-based paid/outstanding split reconstructs exactly the
sublist of rows with non-negative cleaned `Amt. Due (USD)`. -/
theorem amount_split_perm (l : List InvoiceRow) :
    (paid_invoices_by_amount l ++ outstanding_invoices_by_amount l).Perm
      (l.filter (fun r => decide (0 ≤ r.amountDue))) := by
  rw [List.perm_iff_count]
  intro x
  rw [List.count_append]
  unfold paid_invoices_by_amount outstanding_invoices_by_amount
  rcases lt_trichotomy x.amountDue 0 with h | h | h
  · rw [count_filter_of_neg (by simp [ne_of_lt h]),
      count_filter_of_neg (by simp [not_lt_of_gt h]),
      count_filter_of_neg (by simp [not_le_of_gt h])]
  · rw [List.count_filter (by simp [h]), count_filter_of_neg (by simp [h]),
      List.count_filter (by simp [h])]
    omega
  · rw [count_filter_of_neg (by simp [ne_of_gt h]), List.count_filter (by simp [h]),
      List.count_filter (by simp [le_of_lt h])]
    omega

/-- C8 counterexample: an Invoice row whose cleaned `Amt. Due (USD)` is
negative (e.g. parsed from an accounting-style parenthesised amount) is
placed in neither the Paid (`== 0`) nor the Outstanding (`> 0`) group of
final_export.py, so the amount-based split loses it: the two groups together
are empty while the invoice subset is not. -/
theorem c8_counterexample_negative_due_lost :
    type_invoices [⟨"Invoice", "INV-11", "ACME", 100, 200, -100, none, none, none⟩]
      = [⟨"Invoice", "INV-11", "ACME", 100, 200, -100, none, none, none⟩] ∧
    paid_invoices_by_amount [⟨"Invoice", "INV-11", "ACME", 100, 200, -100, none, none, none⟩]
      ++ outstanding_invoices_by_amount
          [⟨"Invoice", "INV-11", "ACME", 100, 200, -100, none, none, none⟩]
      = ([] : List InvoiceRow) := by decide

/-- C8 amended: the type partition (Invoice, Credit Memo, residual) loses and
duplicates nothing, and the date-based Paid/Outstanding split reconstructs
the Invoice subset exactly; the amount-based split of final_export.py
reconstructs only the invoices with non-negative cleaned `Amt. Due (USD)` —
rows with a negative cleaned due amount fall in neither group. -/
theorem c8_amended_partition_reconstruction :
    ∀ df : List InvoiceRow,
      (type_invoices df ++ type_credit_memos df ++ type_others df).Perm df ∧
      (routine_paid_split (type_invoices df)
          ++ routine_outstanding_split (type_invoices df)).Perm (type_invoices df) ∧
      (paid_invoices_by_amount (type_invoices df)
          ++ outstanding_invoices_by_amount (type_invoices df)).Perm
        ((type_invoices df).filter (fun r => decide (0 ≤ r.amountDue))) := by
  intro df
  refine ⟨?_, ?_, amount_split_perm _⟩
  · exact filter_tripartition_perm _ _ (fun a ha => by
      simp only [decide_eq_true_eq] at ha
      simp [ha]) df
  · have hcongr : routine_outstanding_split (type_invoices df)
        = (type_invoices df).filter (fun r => !r.lastPaymentDate.isSome) := by
      unfold routine_outstanding_split
      exact List.filter_congr fun r _ => by rcases r.lastPaymentDate <;> rfl
    rw [hcongr]
    exact List.filter_append_perm _ _

/-- C10: under the amount-based discriminator of the export scripts, the Paid
(`Amt. Due == 0`) and Outstanding (`Amt. Due > 0`) populations are disjoint,
and their union is exactly the rows of the source frame with non-negative
cleaned `Amt. Due (USD)`; a row with a negative cleaned due amount is a
member of neither list (and every downstream aging table of final_export.py
is computed from these two lists alone). -/
theorem c10_amount_split_disjoint_union :
    ∀ df : List InvoiceRow,
      (∀ r : InvoiceRow,
        (r ∈ paid_invoices_by_amount df ∨ r ∈ outstanding_invoices_by_amount df) ↔
          (r ∈ df ∧ 0 ≤ r.amountDue)) ∧
      (paid_invoices_by_amount df) ∩ (outstanding_invoices_by_amount df) = [] := by
  intro df
  constructor
  · intro r
    unfold paid_invoices_by_amount outstanding_invoices_by_amount
    rw [List.mem_filter, List.mem_filter]
    simp only [decide_eq_true_eq]
    constructor
    · rintro (⟨hm, h⟩ | ⟨hm, h⟩)
      · exact ⟨hm, le_of_eq h.symm⟩
      · exact ⟨hm, le_of_lt h⟩
    · rintro ⟨hm, h⟩
      rcases eq_or_lt_of_le h with h0 | h0
      · exact Or.inl ⟨hm, h0.symm⟩
      · exact Or.inr ⟨hm, h0⟩
  · refine List.eq_nil_iff_forall_not_mem.mpr fun r hr => ?_
    have h := List.mem_inter_iff.mp hr
    have h1 := (List.mem_filter.mp h.1).2
    have h2 := (List.mem_filter.mp h.2).2
    simp only [decide_eq_true_eq] at h1 h2
    exact absurd h2 (by rw [h1]; exact lt_irrefl 0)

/-- Helper: one cons step of a groupby total. -/
theorem group_total_cons (r : InvoiceRow) (t : List InvoiceRow)
    (f : InvoiceRow → String) (g : InvoiceRow → ℚ) (b : String) :
    group_total (r :: t) f g b = (if f r = b then g r else 0) + group_total t f g b := by
  unfold group_total
  rw [List.filter_cons]
  by_cases h : f r = b
  · simp [h]
  · simp [h]

/-- Helper: a bucket label that occurs nowhere in a population has groupby
total zero. -/
theorem group_total_eq_zero {t : List InvoiceRow} {f : InvoiceRow → String}
    {g : InvoiceRow → ℚ} {b : String} (h : b ∉ bucket_groups t f) :
    group_total t f g b = 0 := by
  unfold group_total
  have hnil : t.filter (fun r => decide (f r = b)) = [] := by
    refine List.filter_eq_nil_iff.mpr fun r hr => ?_
    simp only [decide_eq_true_eq]
    intro heq
    exact h (by
      unfold bucket_groups
      rw [List.mem_toFinset, List.mem_map]
      exact ⟨r, hr, heq⟩)
  rw [hnil]
  rfl

/-- Helper: the groupby totals over the occurring bucket labels sum to the
total over the whole population (no record is lost or double counted by the
groupby). -/
theorem sum_group_total (pop : List InvoiceRow) (f : InvoiceRow → String)
    (g : InvoiceRow → ℚ) :
    ∑ b ∈ bucket_groups pop f, group_total pop f g b = (pop.map g).sum := by
  induction pop with
  | nil => simp [bucket_groups, group_total]
  | cons r t ih =>
    have hg : bucket_groups (r :: t) f = insert (f r) (bucket_groups t f) := by
      simp [bucket_groups]
    rw [hg, Finset.sum_congr rfl fun b _ => group_total_cons r t f g b,
      Finset.sum_add_distrib, Finset.sum_ite_eq]
    rw [if_pos (Finset.mem_insert_self _ _)]
    by_cases hmem : f r ∈ bucket_groups t f
    · rw [Finset.insert_eq_self.mpr hmem, ih]
      simp
    · rw [Finset.sum_insert hmem, group_total_eq_zero hmem, ih]
      simp

/-- Helper: a percentage column normalised by the total of the same
population sums to exactly 100 whenever that total is nonzero. -/
theorem pct_sum_eq_100 (pop : List InvoiceRow) (f : InvoiceRow → String)
    (g : InvoiceRow → ℚ) (hT : (pop.map g).sum ≠ 0) :
    ∑ b ∈ bucket_groups pop f, pct_column pop f g b = 100 := by
  unfold pct_column
  rw [← Finset.sum_mul, ← Finset.sum_div, sum_group_total, div_self hT, one_mul]

/-- Helper: the count measure sums to the population length. -/
theorem map_one_sum (pop : List InvoiceRow) :
    (pop.map fun _ => (1 : ℚ)).sum = pop.length := by
  rw [List.map_const', List.sum_replicate, nsmul_eq_mul, mul_one]

/-- C9: every percentage column of final_export.py is
`group total / population total * 100` with the population total taken over
the same filtered population the grouping came from (paid percentages over
the paid population, outstanding over the outstanding population, lines
199-213 and 266-280), and within each population both the count-percentage
and the amount-percentage columns sum to exactly 100 (the model computes the
exact pre-`.round(2)` values; rounding each of at most five bucket rows to
two decimals moves the sum by at most 0.025). -/
theorem c9_percentage_columns_sum_to_100 :
    ∀ df : List InvoiceRow,
      (paid_invoices_by_amount df ≠ [] →
        ∑ b ∈ bucket_groups (paid_invoices_by_amount df) final_export_bucket_paid,
          pct_column (paid_invoices_by_amount df) final_export_bucket_paid
            (fun _ => 1) b = 100) ∧
      (((paid_invoices_by_amount df).map (fun r => r.amount)).sum ≠ 0 →
        ∑ b ∈ bucket_groups (paid_invoices_by_amount df) final_export_bucket_paid,
          pct_column (paid_invoices_by_amount df) final_export_bucket_paid
            (fun r => r.amount) b = 100) ∧
      (outstanding_invoices_by_amount df ≠ [] →
        ∑ b ∈ bucket_groups (outstanding_invoices_by_amount df)
            final_export_bucket_outstanding,
          pct_column (outstanding_invoices_by_amount df) final_export_bucket_outstanding
            (fun _ => 1) b = 100) ∧
      (((outstanding_invoices_by_amount df).map (fun r => r.amountDue)).sum ≠ 0 →
        ∑ b ∈ bucket_groups (outstanding_invoices_by_amount df)
            final_export_bucket_outstanding,
          pct_column (outstanding_invoices_by_amount df) final_export_bucket_outstanding
            (fun r => r.amountDue) b = 100) := by
  intro df
  refine ⟨fun hne => ?_, fun hT => pct_sum_eq_100 _ _ _ hT,
    fun hne => ?_, fun hT => pct_sum_eq_100 _ _ _ hT⟩
  · refine pct_sum_eq_100 _ _ _ ?_
    rw [map_one_sum]
    simpa [Nat.cast_eq_zero, List.length_eq_zero] using hne
  · refine pct_sum_eq_100 _ _ _ ?_
    rw [map_one_sum]
    simpa [Nat.cast_eq_zero, List.length_eq_zero] using hne

/-- C9 witness: a frame with one fully paid invoice (amount 200) and one
outstanding invoice (amount due 50); all four percentage columns sum
to 100. -/
theorem c9_percentage_columns_sum_to_100_witness :
    (∑ b ∈ bucket_groups (paid_invoices_by_amount
          [⟨"Invoice", "P", "ACME", 200, 200, 0, none, some (dayOf 2025 1 1),
              some (dayOf 2025 1 15)⟩,
           ⟨"Invoice", "O", "ACME", 300, 250, 50, none, some (dayOf 2025 1 1), none⟩])
        final_export_bucket_paid,
      pct_column (paid_invoices_by_amount
          [⟨"Invoice", "P", "ACME", 200, 200, 0, none, some (dayOf 2025 1 1),
              some (dayOf 2025 1 15)⟩,
           ⟨"Invoice", "O", "ACME", 300, 250, 50, none, some (dayOf 2025 1 1), none⟩])
        final_export_bucket_paid (fun _ => 1) b = 100) ∧
    (∑ b ∈ bucket_groups (outstanding_invoices_by_amount
          [⟨"Invoice", "P", "ACME", 200, 200, 0, none, some (dayOf 2025 1 1),
              some (dayOf 2025 1 15)⟩,
           ⟨"Invoice", "O", "ACME", 300, 250, 50, none, some (dayOf 2025 1 1), none⟩])
        final_export_bucket_outstanding,
      pct_column (outstanding_invoices_by_amount
          [⟨"Invoice", "P", "ACME", 200, 200, 0, none, some (dayOf 2025 1 1),
              some (dayOf 2025 1 15)⟩,
           ⟨"Invoice", "O", "ACME", 300, 250, 50, none, some (dayOf 2025 1 1), none⟩])
        final_export_bucket_outstanding (fun r => r.amountDue) b = 100) :=
  ⟨(c9_percentage_columns_sum_to_100 _).1 (by decide),
   (c9_percentage_columns_sum_to_100 _).2.2.2 (by
      simp [outstanding_invoices_by_amount])⟩

/-- Helper: facts about the rendering of a single decimal digit. -/
theorem digitChar_money_facts {d : Nat} (h : d < 10) :
    moneyCharMap (Nat.digitChar d) = some (Nat.digitChar d) ∧
    lowerChar (Nat.digitChar d) = Nat.digitChar d ∧
    isDigitChar (Nat.digitChar d) = true ∧
    charDigit (Nat.digitChar d) = d := by
  interval_cases d <;> exact ⟨rfl, rfl, rfl, rfl⟩

/-- Helper: a decimal digit character is none of the separator or special
characters of the float grammar. -/
theorem digitChar_ne_special {d : Nat} (h : d < 10) :
    Nat.digitChar d ≠ '.' ∧ Nat.digitChar d ≠ 'e' ∧ Nat.digitChar d ≠ '-' ∧
    Nat.digitChar d ≠ '+' ∧ Nat.digitChar d ≠ 'i' ∧ Nat.digitChar d ≠ 'n' ∧
    Nat.digitChar d ≠ ',' := by
  interval_cases d <;> exact ⟨by decide, by decide, by decide, by decide, by decide,
    by decide, by decide⟩

/-- Helper: membership in a rendered digit list. -/
theorem mem_renderDigits {c : Char} {l : List Nat} (hl : ∀ d ∈ l, d < 10)
    (hc : c ∈ renderDigits l) : ∃ d, d < 10 ∧ c = Nat.digitChar d := by
  obtain ⟨d, hd, hcd⟩ := List.mem_map.mp hc
  exact ⟨d, hl d hd, hcd.symm⟩

/-- Helper: the money strip chain leaves rendered digits unchanged. -/
theorem filterMap_money_digits (l : List Nat) (h : ∀ d ∈ l, d < 10) :
    (renderDigits l).filterMap moneyCharMap = renderDigits l := by
  induction l with
  | nil => rfl
  | cons d t ih =>
    have hd := (digitChar_money_facts (h d (List.mem_cons_self d t))).1
    have ht := ih fun x hx => h x (List.mem_cons_of_mem _ hx)
    simp only [renderDigits, List.map_cons, List.filterMap_cons, hd] at *
    rw [ht]

/-- Helper: case folding leaves rendered digits unchanged. -/
theorem map_lower_digits (l : List Nat) (h : ∀ d ∈ l, d < 10) :
    (renderDigits l).map lowerChar = renderDigits l := by
  induction l with
  | nil => rfl
  | cons d t ih =>
    have hd := (digitChar_money_facts (h d (List.mem_cons_self d t))).2.1
    have ht := ih fun x hx => h x (List.mem_cons_of_mem _ hx)
    simp only [renderDigits, List.map_cons, hd] at *
    rw [ht]

/-- Helper: rendered digits pass the all-digit test. -/
theorem allDigits_renderDigits (l : List Nat) (h : ∀ d ∈ l, d < 10) :
    allDigits (renderDigits l) = true := by
  induction l with
  | nil => rfl
  | cons d t ih =>
    have hd := (digitChar_money_facts (h d (List.mem_cons_self d t))).2.2.1
    have ht := ih fun x hx => h x (List.mem_cons_of_mem _ hx)
    simp only [allDigits, renderDigits, List.map_cons, List.all_cons, hd] at *
    simpa using ht

/-- Helper: parsing a rendered digit list recovers the digit-list value. -/
theorem digitsToNat_renderDigits (l : List Nat) (h : ∀ d ∈ l, d < 10) :
    digitsToNat (renderDigits l) = natOfDigitList l := by
  suffices haux : ∀ (l2 : List Nat) (a : Nat), (∀ d ∈ l2, d < 10) →
      (renderDigits l2).foldl (fun a c => 10 * a + charDigit c) a
        = l2.foldl (fun a d => 10 * a + d) a by
    exact haux l 0 h
  intro l2
  induction l2 with
  | nil => intro a _; rfl
  | cons d t ih =>
    intro a hl2
    have hd := (digitChar_money_facts (hl2 d (List.mem_cons_self d t))).2.2.2
    simp only [renderDigits, List.map_cons, List.foldl_cons, hd]
    exact ih _ fun x hx => hl2 x (List.mem_cons_of_mem _ hx)

/-- Helper: splitting on a character that does not occur is the identity. -/
theorem not_mem_splitOnChar (sep : Char) (l : List Char) (h : ∀ c ∈ l, c ≠ sep) :
    splitOnChar sep l = [l] := by
  induction l with
  | nil => rfl
  | cons c t ih =>
    have hc : ¬c = sep := h c (List.mem_cons_self c t)
    have ht := ih fun x hx => h x (List.mem_cons_of_mem _ hx)
    simp [splitOnChar, hc, ht]

/-- Helper: splitting a list with exactly one separator occurrence. -/
theorem splitOnChar_append (sep : Char) (a b : List Char) (ha : ∀ c ∈ a, c ≠ sep)
    (hb : ∀ c ∈ b, c ≠ sep) : splitOnChar sep (a ++ sep :: b) = [a, b] := by
  induction a with
  | nil =>
    simp [splitOnChar, not_mem_splitOnChar sep b hb]
  | cons c t ih =>
    have hc : ¬c = sep := ha c (List.mem_cons_self c t)
    have ht := ih fun x hx => ha x (List.mem_cons_of_mem _ hx)
    simp [splitOnChar, hc, ht]

/-- Helper: the money strip chain on rendered comma groups drops exactly the
commas. -/
theorem filterMap_money_groups (gs : List (List Nat))
    (h : ∀ g ∈ gs, ∀ d ∈ g, d < 10) :
    (renderGroups gs).filterMap moneyCharMap = renderDigits gs.flatten := by
  induction gs with
  | nil => rfl
  | cons g t ih =>
    have hg := h g (List.mem_cons_self g t)
    have ht := ih fun x hx => h x (List.mem_cons_of_mem _ hx)
    simp only [renderGroups, List.map_cons, List.flatten_cons, List.filterMap_append,
      List.filterMap_cons, renderDigits, List.map_append] at *
    rw [show moneyCharMap ',' = none from rfl]
    rw [show (List.map Nat.digitChar g).filterMap moneyCharMap = List.map Nat.digitChar g from
      filterMap_money_digits g hg]
    rw [ht]

/-- Helper: the money strip chain keeps the decimal point and frac digits. -/
theorem filterMap_money_frac (fr : Option (List Nat))
    (h : ∀ f, fr = some f → ∀ d ∈ f, d < 10) :
    (renderFrac fr).filterMap moneyCharMap = renderFrac fr := by
  cases fr with
  | none => rfl
  | some f =>
    simp only [renderFrac, List.filterMap_cons]
    rw [show moneyCharMap '.' = some '.' from rfl, filterMap_money_digits f (h f rfl)]

/-- Helper: case folding keeps the decimal point and frac digits. -/
theorem map_lower_frac (fr : Option (List Nat))
    (h : ∀ f, fr = some f → ∀ d ∈ f, d < 10) :
    (renderFrac fr).map lowerChar = renderFrac fr := by
  cases fr with
  | none => rfl
  | some f =>
    simp only [renderFrac, List.map_cons]
    rw [show lowerChar '.' = '.' from rfl, map_lower_digits f (h f rfl)]

/-- Helper: the stripped form of a rendered grammar string is an optional
minus sign, the integer digits, and the fractional part. -/
theorem strip_render (m : MoneyForm) (h : money_wf m) :
    (stripMoneyChars (render m)).data
      = (if m.parens then ['-'] else [])
        ++ (renderDigits (intDigits m) ++ renderFrac m.fracDigits) := by
  obtain ⟨h1, h2, h3, h4, h5⟩ := h
  have hgd : ∀ g ∈ m.commaGroups, ∀ d ∈ g, d < 10 := fun g hg => (h3 g hg).2
  show ((if m.dollar then ['$'] else [])
      ++ (if m.parens then '(' :: (renderCore m ++ [')']) else renderCore m)).filterMap
        moneyCharMap = _
  have hcore : (renderCore m).filterMap moneyCharMap
      = renderDigits (intDigits m) ++ renderFrac m.fracDigits := by
    unfold renderCore intDigits
    rw [List.filterMap_append, List.filterMap_append,
      filterMap_money_digits _ h2, filterMap_money_groups _ hgd,
      filterMap_money_frac _ h5]
    simp [renderDigits, List.map_append]
  rw [List.filterMap_append]
  have hdollar : (if m.dollar then ['$'] else []).filterMap moneyCharMap = [] := by
    cases m.dollar <;> rfl
  rw [hdollar, List.nil_append]
  cases hp : m.parens
  · simpa using hcore
  · rw [if_pos rfl, if_pos rfl, List.filterMap_cons,
      show moneyCharMap '(' = some '-' from rfl, List.filterMap_append, hcore]
    simp [show moneyCharMap ')' = none from rfl]

/-- Helper: integer digits of a well-formed form are decimal digits. -/
theorem intDigits_lt (m : MoneyForm) (hm : money_wf m) : ∀ d ∈ intDigits m, d < 10 := by
  intro d hd
  rcases List.mem_append.mp hd with hd | hd
  · exact hm.2.1 d hd
  · obtain ⟨g, hg, hdg⟩ := List.mem_flatten.mp hd
    exact (hm.2.2.1 g hg).2 d hdg

/-- Helper: the integer part of a well-formed form is nonempty. -/
theorem intDigits_ne_nil (m : MoneyForm) (hm : money_wf m) : intDigits m ≠ [] := by
  intro hcon
  exact hm.1 (List.append_eq_nil.mp hcon).1

/-- Helper: rendered digits avoid any non-digit character. -/
theorem renderDigits_ne_char {l : List Nat} (h : ∀ d ∈ l, d < 10) {ch : Char}
    (hch : ∀ d : Nat, d < 10 → Nat.digitChar d ≠ ch) : ∀ c ∈ renderDigits l, c ≠ ch := by
  intro c hc
  obtain ⟨d, hd, hcd⟩ := mem_renderDigits h hc
  exact hcd ▸ hch d hd

/-- Helper: a character of a rendered fractional part is the decimal point
or a digit. -/
theorem mem_renderFrac_cases {c : Char} {fr : Option (List Nat)}
    (h5 : ∀ f, fr = some f → ∀ d ∈ f, d < 10) (hc : c ∈ renderFrac fr) :
    c = '.' ∨ ∃ d, d < 10 ∧ c = Nat.digitChar d := by
  cases fr with
  | none => simp [renderFrac] at hc
  | some f =>
    rcases List.mem_cons.mp hc with hc | hc
    · exact Or.inl hc
    · exact Or.inr (mem_renderDigits (h5 f rfl) hc)

/-- Helper: the mantissa parser evaluates a stripped grammar core to its
decimal value. -/
theorem parseMantissa_core (m : MoneyForm) (hm : money_wf m) :
    parseMantissa (renderDigits (intDigits m) ++ renderFrac m.fracDigits)
      = some ((natOfDigitList (intDigits m) : ℚ) +
          (match m.fracDigits with
           | none => (0 : ℚ)
           | some f => (natOfDigitList f : ℚ) / (10 : ℚ) ^ f.length)) := by
  have hint : ∀ d ∈ intDigits m, d < 10 := intDigits_lt m hm
  have hdot : ∀ c ∈ renderDigits (intDigits m), c ≠ '.' :=
    renderDigits_ne_char hint fun d hd => (digitChar_ne_special hd).1
  have hne : renderDigits (intDigits m) ≠ [] := by
    intro hcon
    exact intDigits_ne_nil m hm (List.map_eq_nil_iff.mp hcon)
  obtain ⟨c0, rest, hcr⟩ := List.exists_cons_of_ne_nil hne
  have hie : (renderDigits (intDigits m)).isEmpty = false := by rw [hcr]; rfl
  cases hfr : m.fracDigits with
  | none =>
    unfold parseMantissa
    rw [show renderFrac none = [] from rfl, List.append_nil,
      not_mem_splitOnChar '.' _ hdot]
    simp [allDigits_renderDigits _ hint, hie, digitsToNat_renderDigits _ hint]
  | some f =>
    have hfd : ∀ d ∈ f, d < 10 := hm.2.2.2.2 f hfr
    have hdotf : ∀ c ∈ renderDigits f, c ≠ '.' :=
      renderDigits_ne_char hfd fun d hd => (digitChar_ne_special hd).1
    unfold parseMantissa
    rw [show renderFrac (some f) = '.' :: renderDigits f from rfl,
      splitOnChar_append '.' _ _ hdot hdotf]
    simp [allDigits_renderDigits _ hint, allDigits_renderDigits _ hfd, hie,
      digitsToNat_renderDigits _ hint, digitsToNat_renderDigits _ hfd,
      show (renderDigits f).length = f.length from List.length_map _ _,
      intDigits_ne_nil m hm]

/-- Helper: the float-body parser evaluates a stripped grammar core to its
decimal value (there is no exponent marker in a grammar string). -/
theorem parseBody_core (m : MoneyForm) (hm : money_wf m) :
    parseBody (renderDigits (intDigits m) ++ renderFrac m.fracDigits)
      = some ((natOfDigitList (intDigits m) : ℚ) +
          (match m.fracDigits with
           | none => (0 : ℚ)
           | some f => (natOfDigitList f : ℚ) / (10 : ℚ) ^ f.length)) := by
  have hint : ∀ d ∈ intDigits m, d < 10 := intDigits_lt m hm
  have hnoE : ∀ c ∈ renderDigits (intDigits m) ++ renderFrac m.fracDigits, c ≠ 'e' := by
    intro c hc
    rcases List.mem_append.mp hc with hc | hc
    · exact renderDigits_ne_char hint (fun d hd => (digitChar_ne_special hd).2.1) c hc
    · rcases mem_renderFrac_cases hm.2.2.2.2 hc with hc | ⟨d, hd, hcd⟩
      · rw [hc]; decide
      · exact hcd ▸ (digitChar_ne_special hd).2.1
  unfold parseBody
  rw [not_mem_splitOnChar 'e' _ hnoE]
  exact parseMantissa_core m hm

/-- Helper: `pd.to_numeric` on a stripped grammar string yields exactly the
implied value. -/
theorem parse_strip_render (m : MoneyForm) (hm : money_wf m) :
    parseNum (stripMoneyChars (render m)) = some (PyNum.finite (impliedValue m)) := by
  have hint : ∀ d ∈ intDigits m, d < 10 := intDigits_lt m hm
  have h5 : ∀ f, m.fracDigits = some f → ∀ d ∈ f, d < 10 := hm.2.2.2.2
  obtain ⟨d0, t0, hd0⟩ := List.exists_cons_of_ne_nil (intDigits_ne_nil m hm)
  have hd0lt : d0 < 10 := hint d0 (by rw [hd0]; exact List.mem_cons_self _ _)
  have hrd : renderDigits (intDigits m) = Nat.digitChar d0 :: renderDigits t0 := by
    rw [hd0]; rfl
  have hci : Nat.digitChar d0 ≠ 'i' := (digitChar_ne_special hd0lt).2.2.2.2.1
  have hcn : Nat.digitChar d0 ≠ 'n' := (digitChar_ne_special hd0lt).2.2.2.2.2.1
  have hcm : Nat.digitChar d0 ≠ '-' := (digitChar_ne_special hd0lt).2.2.1
  have hcp : Nat.digitChar d0 ≠ '+' := (digitChar_ne_special hd0lt).2.2.2.1
  unfold parseNum
  rw [strip_render m hm, List.map_append, List.map_append,
    map_lower_digits _ hint, map_lower_frac _ h5]
  cases hp : m.parens
  · rw [if_neg (by decide : ¬(false = true)), List.map_nil, List.nil_append,
      hrd, List.cons_append]
    simp only [hcm, hcp, hci, hcn, List.cons.injEq, false_and, if_false, reduceCtorEq]
    rw [← List.cons_append, ← hrd, parseBody_core m hm]
    simp [impliedValue, hp]
  · rw [if_pos rfl, show List.map lowerChar ['-'] = ['-'] from rfl,
      List.singleton_append, hrd, List.cons_append]
    simp only [reduceIte, List.cons.injEq, hci, false_and, if_false]
    rw [← List.cons_append, ← hrd, parseBody_core m hm]
    simp [impliedValue, hp]

/-- Helper: the full cleaning chain maps a grammar string to its implied
value. -/
theorem clean_money_render (m : MoneyForm) (hm : money_wf m) :
    clean_money (render m) = PyNum.finite (impliedValue m) := by
  obtain ⟨d0, t0, hd0⟩ := List.exists_cons_of_ne_nil (intDigits_ne_nil m hm)
  have hd0lt : d0 < 10 := intDigits_lt m hm d0 (by rw [hd0]; exact List.mem_cons_self _ _)
  have hrd : renderDigits (intDigits m) = Nat.digitChar d0 :: renderDigits t0 := by
    rw [hd0]; rfl
  have hcn : Nat.digitChar d0 ≠ 'n' := (digitChar_ne_special hd0lt).2.2.2.2.2.1
  have hdata := strip_render m hm
  rw [hrd] at hdata
  have hne_empty : stripMoneyChars (render m) ≠ "" := by
    intro hcon
    rw [hcon] at hdata
    cases hp : m.parens <;> rw [hp] at hdata <;> simp at hdata
  have hne_nan : stripMoneyChars (render m) ≠ "nan" := by
    intro hcon
    rw [hcon] at hdata
    cases hp : m.parens <;> rw [hp] at hdata
    · rw [if_neg (by decide : ¬(false = true)), List.nil_append] at hdata
      injection hdata with hh _
      exact hcn hh.symm
    · rw [if_pos rfl, List.singleton_append] at hdata
      injection hdata with hh _
      exact absurd hh (by decide)
  unfold clean_money
  rw [show replaceNanEmpty (stripMoneyChars (render m)) = stripMoneyChars (render m) by
    unfold replaceNanEmpty
    rw [if_neg hne_nan, if_neg hne_empty]]
  unfold to_numeric_coerce
  rw [parse_strip_render m hm]
  rfl

/-- C6 counterexample: `"1 2"` (interior space) and `"1,2"` (malformed
thousands grouping) are outside the accepted grammar, yet the normalizer
strips the offending characters and returns `12.0`, not the claimed `0.0`. -/
theorem c6_counterexample_nongrammar_nonzero :
    money_grammar "1 2" = false ∧ clean_money "1 2" = PyNum.finite 12 ∧
    money_grammar "1,2" = false ∧ clean_money "1,2" = PyNum.finite 12 := by decide

/-- C6 amended: for every string of the accepted grammar the normalizer
returns exactly the mathematically implied value, and `"nan"`, `""` and any
string whose stripped form fails to parse return `0.0`; but a string outside
the grammar whose stripped form still parses (e.g. `"1 2"` or `"1,2"`)
returns that parsed value rather than `0.0`. -/
theorem c6_amended_grammar_value :
    (∀ m : MoneyForm, money_wf m → clean_money (render m) = PyNum.finite (impliedValue m)) ∧
    (∀ s : String, parseNum (replaceNanEmpty (stripMoneyChars s)) = none →
        clean_money s = PyNum.finite 0) ∧
    clean_money "nan" = PyNum.finite 0 ∧ clean_money "" = PyNum.finite 0 := by
  refine ⟨fun m hm => clean_money_render m hm, fun s hs => ?_, by decide, by decide⟩
  unfold clean_money to_numeric_coerce
  rw [hs]
  rfl

/-- C6 amended, witness: the spec's own edge cases, via the grammar forms of
`"(1,234.50)"` and `"$0"`. -/
theorem c6_amended_grammar_value_witness :
    clean_money "(1,234.50)" = PyNum.finite (-(12345 / 10 : ℚ)) ∧
    clean_money "$0" = PyNum.finite 0 ∧
    clean_money "nan" = PyNum.finite 0 := by
  refine ⟨?_, ?_, c6_amended_grammar_value.2.2.1⟩
  · have h := c6_amended_grammar_value.1 ⟨false, true, [1], [[2, 3, 4]], some [5, 0]⟩
      (by decide)
    have hr : render ⟨false, true, [1], [[2, 3, 4]], some [5, 0]⟩ = "(1,234.50)" := by decide
    rw [hr] at h
    rw [h]
    show PyNum.finite _ = PyNum.finite _
    norm_num [impliedValue, intDigits, natOfDigitList]
  · have h := c6_amended_grammar_value.1 ⟨true, false, [0], [], none⟩ (by decide)
    have hr : render ⟨true, false, [0], [], none⟩ = "$0" := by decide
    rw [hr] at h
    rw [h]
    show PyNum.finite _ = PyNum.finite _
    norm_num [impliedValue, intDigits, natOfDigitList]

/-- C7 counterexample: the input string `"inf"` passes the strip chain
unchanged, `pd.to_numeric` parses it to positive infinity, and `.fillna(0)`
does not replace infinities — the normalizer's output is not finite. -/
theorem c7_counterexample_inf_not_finite :
    clean_money "inf" = PyNum.inf ∧ (clean_money "inf").isFinite = false := by decide

/-- C7 amended: the normalizer is total and never returns NaN (every NaN is
replaced by `0.0` by `fillna(0)`), but its output is not always finite:
strings spelling infinity (pandas parses `inf`/`-inf`) yield an infinite
value. -/
theorem c7_amended_total_never_nan :
    (∀ s : String, (clean_money s).isNan = false) ∧
    clean_money "inf" = PyNum.inf ∧ clean_money "-inf" = PyNum.neginf := by
  refine ⟨fun s => ?_, by decide, by decide⟩
  unfold clean_money
  cases h : to_numeric_coerce (replaceNanEmpty (stripMoneyChars s)) <;>
    simp [fillna0, PyNum.isNan]
